import Mathlib

/-!
Verification development for a cross-exchange arbitrage detection system.

The system ingests price feeds from eight cryptocurrency exchanges,
normalizes them into a shared ticker cache, and periodically scans the
cache for cross-exchange spreads that stay profitable after taker fees.

Shallow-embedding conventions used throughout this file:
- JavaScript numbers are modelled as rationals (ℚ).  The engine's
  arithmetic on prices, spreads and fees is embedded exactly.
- `parseFloat(x) || 0` is modelled by giving wire fields the type
  `Option ℚ` (with `none` for a missing field or a value that parses to
  NaN) and coercing with `jsNum` below; `some 0` and `none` both coerce
  to `0`, exactly as `|| 0` does.
- The `Map` keyed by the string `exchange + "-" + pair` is modelled as a
  function from the pair of components: no two distinct component pairs
  produce the same string key because no exchange id contains `-` and no
  exchange id is a proper first component of another, so the string key
  is injective in the components.
- Pair and symbol strings are modelled as `List Char` so that the
  character-level symbol rewriting done by the adapters can be reasoned
  about directly.
- Timestamps (`Date.now()`) are modelled as a natural-number parameter
  `now` threaded to the functions that read the clock.
-/

/-- The eight exchange identifiers from the adapter registry. -/
inductive ExchangeId where
  | bybit | okx | mexc | bitget | gateio | kucoin | coinex | bingx
deriving DecidableEq, Repr

/-- Pair / symbol strings, modelled at character level. -/
abbrev PairStr := List Char

/-- Canonical normalized ticker, one per (exchange, pair) cache key.
All numeric fields are rationals (the embedding of JS numbers). -/
structure Ticker where
  exchange : ExchangeId
  pair : PairStr
  bid : ℚ
  ask : ℚ
  last : ℚ
  volume24h : ℚ
  change24h : ℚ
  timestamp : ℕ
deriving DecidableEq, Repr

/-- The shared ticker cache: latest value per (exchange, pair) key. -/
abbrev TickerMap := ExchangeId × PairStr → Option Ticker

/-- The engine's cooldown map, keyed by (pair, buyExchange, sellExchange);
the source keys it by the string `pair-buy-sell`, which is injective in
the three components because exchange ids contain no `-`. -/
abbrev CooldownMap := PairStr × ExchangeId × ExchangeId → Option ℕ

/-- Engine settings record (`Settings` in the source schema). -/
structure Settings where
  minProfitPercent : ℚ
  enabledExchanges : List ExchangeId
  enabledPairs : List PairStr
  telegramEnabled : Bool
  soundEnabled : Bool
  tradeAmount : ℚ
deriving DecidableEq, Repr

/-- `Partial<Settings>`: every field optional; `none` models an absent
key (a key explicitly present with value `undefined` is not modelled). -/
structure PartialSettings where
  minProfitPercent : Option ℚ := none
  enabledExchanges : Option (List ExchangeId) := none
  enabledPairs : Option (List PairStr) := none
  telegramEnabled : Option Bool := none
  soundEnabled : Option Bool := none
  tradeAmount : Option ℚ := none
deriving DecidableEq, Repr

/-- `updateSettings`: `this.settings = { ...this.settings, ...newSettings }`.
Object spread keeps the old value for every key absent from the partial
and takes the partial's value for every key present in it. -/
def updateSettings (s : Settings) (p : PartialSettings) : Settings :=
  { minProfitPercent := p.minProfitPercent.getD s.minProfitPercent
    enabledExchanges := p.enabledExchanges.getD s.enabledExchanges
    enabledPairs := p.enabledPairs.getD s.enabledPairs
    telegramEnabled := p.telegramEnabled.getD s.telegramEnabled
    soundEnabled := p.soundEnabled.getD s.soundEnabled
    tradeAmount := p.tradeAmount.getD s.tradeAmount }

/-- `getSettings()`: returns the engine's current settings record. -/
def getSettings (s : Settings) : Settings := s

/-- First loop of `analyzePair`: collect `{exchange, price: ticker.ask}`
for every enabled exchange whose cached ticker has `ask > 0 && bid > 0`,
in the iteration order of `settings.enabledExchanges`. -/
def collectPrices (enabled : List ExchangeId) (tickers : TickerMap) (pair : PairStr) :
    List (ExchangeId × ℚ) :=
  enabled.filterMap fun ex =>
    match tickers (ex, pair) with
    | some t => if t.ask > 0 ∧ t.bid > 0 then some (ex, t.ask) else none
    | none => none

/-- The comparator `(a, b) => a.price - b.price`: ascending by price.
`Array.prototype.sort` is stable, so a stable sort with the non-strict
order on the price component is the faithful embedding. -/
def priceLe (a b : ExchangeId × ℚ) : Prop := a.2 ≤ b.2

instance : DecidableRel priceLe :=
  fun a b => inferInstanceAs (Decidable (a.2 ≤ b.2))

instance : IsTotal (ExchangeId × ℚ) priceLe := ⟨fun a b => le_total a.2 b.2⟩

instance : IsTrans (ExchangeId × ℚ) priceLe := ⟨fun _ _ _ h1 h2 => le_trans h1 h2⟩

/-- An emitted arbitrage opportunity (the random UUID id is omitted from
the model; it carries no behavioural content). -/
structure Opportunity where
  pair : PairStr
  buyExchange : ExchangeId
  sellExchange : ExchangeId
  buyPrice : ℚ
  sellPrice : ℚ
  spreadPercent : ℚ
  profitPercent : ℚ
  estimatedProfit : ℚ
  volume : ℚ
  buyFee : ℚ
  sellFee : ℚ
  timestamp : ℕ
deriving DecidableEq, Repr

/-- `parseFloat(x.toFixed(d))`: round to `d` decimal places.  The model
rounds the exact rational to the nearest multiple of `10⁻ᵈ`. -/
def roundTo (d : ℕ) (q : ℚ) : ℚ := (round (q * 10 ^ d) : ℤ) / 10 ^ d

/-- Everything one `analyzePair` call computes for a pair once it has at
least two price sources: the collected prices, the chosen venues, the
spread / profit numbers, whether the diagnostic analysis event fires,
the emitted opportunity (if any) and the cooldown map afterwards. -/
structure ScanResult where
  prices : List (ExchangeId × ℚ)
  bestBuy : ExchangeId × ℚ
  bestSell : ExchangeId × ℚ
  sellPrice : ℚ
  spread : ℚ
  profitPercent : ℚ
  analysisEmitted : Bool
  opportunity : Option Opportunity
  cooldownAfter : CooldownMap

instance : Inhabited ScanResult :=
  ⟨{ prices := [], bestBuy := (.bybit, 0), bestSell := (.bybit, 0), sellPrice := 0,
     spread := 0, profitPercent := 0, analysisEmitted := false,
     opportunity := none, cooldownAfter := fun _ => none }⟩

/-- The sell-leg price: `sellTicker?.bid || bestSell.price` — the live
bid of the candidate sell venue, falling back to that venue's ask when
the ticker is missing or its bid is `0` (JS `||` treats `0` as falsy). -/
def jsSellPrice (tickers : TickerMap) (pair : PairStr) (bestSell : ExchangeId × ℚ) : ℚ :=
  match tickers (bestSell.1, pair) with
  | some t => if t.bid ≠ 0 then t.bid else bestSell.2
  | none => bestSell.2

/-- Body of `analyzePair` after the `prices.length < 2` guard, given
the sorted list's first element (`bestBuy`, lowest ask) and last
element (`bestSell`, highest ask).  Follows the source line by line:
- `sellPrice` as in `jsSellPrice`;
- `spread = (sellPrice - bestBuy.price) / bestBuy.price * 100`;
- analysis event iff `spread >= 0.3`;
- `profitPercent = spread - (buyFee + sellFee) * 100`;
- if `profitPercent >= minProfitPercent`: consult the cooldown map
  under key (pair, buyExchange, sellExchange); a last emission less
  than 30000 ms ago suppresses the opportunity and leaves the map
  unchanged, otherwise the emission time is recorded and the
  opportunity emitted with prices rounded to 12 decimals and
  percentages to 10. -/
def analyzeCore (fees : ExchangeId → ℚ) (s : Settings) (tickers : TickerMap)
    (cooldown : CooldownMap) (now : ℕ) (pair : PairStr)
    (prices : List (ExchangeId × ℚ)) (bestBuy bestSell : ExchangeId × ℚ) : ScanResult :=
  let sellPrice := jsSellPrice tickers pair bestSell
  let spread := (sellPrice - bestBuy.2) / bestBuy.2 * 100
  let buyFee := fees bestBuy.1
  let sellFee := fees bestSell.1
  let profitPercent := spread - (buyFee + sellFee) * 100
  let key := (pair, bestBuy.1, bestSell.1)
  let base : ScanResult :=
    { prices := prices, bestBuy := bestBuy, bestSell := bestSell,
      sellPrice := sellPrice, spread := spread, profitPercent := profitPercent,
      analysisEmitted := decide (spread ≥ 3 / 10),
      opportunity := none, cooldownAfter := cooldown }
  if profitPercent ≥ s.minProfitPercent then
    if (now : ℤ) - ((cooldown key).getD 0 : ℕ) < 30000 then base
    else
      { base with
        opportunity := some
          { pair := pair, buyExchange := bestBuy.1, sellExchange := bestSell.1,
            buyPrice := roundTo 12 bestBuy.2, sellPrice := roundTo 12 sellPrice,
            spreadPercent := roundTo 10 spread,
            profitPercent := roundTo 10 profitPercent,
            estimatedProfit := roundTo 10 (roundTo 10 profitPercent / 100 * s.tradeAmount),
            volume := 0,
            buyFee := roundTo 10 (buyFee * s.tradeAmount),
            sellFee := roundTo 10 (sellFee * s.tradeAmount),
            timestamp := now },
        cooldownAfter := fun k => if k = key then some now else cooldown k }
  else base

/-- One `analyzePair(pair)` pass of the arbitrage engine.  Returns
`none` when fewer than two enabled exchanges have a qualifying cached
ticker for the pair (the source's early `return`). -/
def analyzePair (fees : ExchangeId → ℚ) (s : Settings) (tickers : TickerMap)
    (cooldown : CooldownMap) (now : ℕ) (pair : PairStr) : Option ScanResult :=
  if (collectPrices s.enabledExchanges tickers pair).length < 2 then none
  else
    match (List.insertionSort priceLe (collectPrices s.enabledExchanges tickers pair)).head?,
        (List.insertionSort priceLe (collectPrices s.enabledExchanges tickers pair)).getLast? with
    | some bestBuy, some bestSell =>
        some (analyzeCore fees s tickers cooldown now pair
          (collectPrices s.enabledExchanges tickers pair) bestBuy bestSell)
    | _, _ => none

/-! ### Concrete fixtures used to exercise the engine -/

/-- The canonical pair string used in concrete scenarios. -/
def pBTC : PairStr := ['B', 'T', 'C', '/', 'U', 'S', 'D', 'T']

/-- A flat taker-fee table of 0.1% (the rate most adapters configure). -/
def feesTest : ExchangeId → ℚ := fun _ => 1 / 1000

/-- An empty cooldown map (no opportunity emitted yet). -/
def cdEmpty : CooldownMap := fun _ => none

/-- Settings with the source's defaults, two enabled exchanges. -/
def settingsTest : Settings :=
  { minProfitPercent := 1, enabledExchanges := [.bitget, .bybit], enabledPairs := [pBTC],
    telegramEnabled := true, soundEnabled := true, tradeAmount := 1000 }

/-- Bitget ticker: ask 100 (lowest ask), bid 99 (highest bid). -/
def tickerBitgetC1 : Ticker :=
  { exchange := .bitget, pair := pBTC, bid := 99, ask := 100, last := 100,
    volume24h := 0, change24h := 0, timestamp := 0 }

/-- Bybit ticker: ask 101 (highest ask), bid 98 (lowest bid). -/
def tickerBybitC1 : Ticker :=
  { exchange := .bybit, pair := pBTC, bid := 98, ask := 101, last := 101,
    volume24h := 0, change24h := 0, timestamp := 0 }

/-- Cache in which the max-ask exchange does not hold the max bid. -/
def tickersLowSellBid : TickerMap := fun k =>
  if k = (.bitget, pBTC) then some tickerBitgetC1
  else if k = (.bybit, pBTC) then some tickerBybitC1 else none

/-- Bitget ticker with ask 100 (buy leg of the profitable scenario). -/
def tickerBuy100 : Ticker :=
  { exchange := .bitget, pair := pBTC, bid := 99, ask := 100, last := 100,
    volume24h := 0, change24h := 0, timestamp := 0 }

/-- Bybit ticker with ask 101 and bid 102 (sell leg; crossed book). -/
def tickerSell102 : Ticker :=
  { exchange := .bybit, pair := pBTC, bid := 102, ask := 101, last := 101,
    volume24h := 0, change24h := 0, timestamp := 0 }

/-- Cache giving buyAsk 100 and sellBid 102: spread 2%, profit 1.8%. -/
def tickersProfit : TickerMap := fun k =>
  if k = (.bitget, pBTC) then some tickerBuy100
  else if k = (.bybit, pBTC) then some tickerSell102 else none

/-- Run several `analyzePair` passes at the given clock times, threading
the cooldown map from pass to pass; returns one emission flag per pass. -/
def runScans (fees : ExchangeId → ℚ) (s : Settings) (tickers : TickerMap) (pair : PairStr) :
    CooldownMap → List ℕ → List Bool
  | _, [] => []
  | cd, t :: ts =>
    match analyzePair fees s tickers cd t pair with
    | none => false :: runScans fees s tickers pair cd ts
    | some r => r.opportunity.isSome :: runScans fees s tickers pair r.cooldownAfter ts

/-- A partial settings object carrying two of the six fields. -/
def partialTest : PartialSettings := { minProfitPercent := some 2, tradeAmount := some 500 }

/-! ### Connector lifecycle state machine (`BaseExchange`)

The `BaseExchange` class owns a WebSocket, an `isConnected` flag, a
reconnect timeout, a ping interval and the subscription set.  The model
tracks, besides the source's fields, a count of live (created, not yet
cancelled and not yet fired) timers of each kind, so that statements
about stray timers are expressible.  Transport events (`open`, `close`,
`error`) are delivered by listeners attached to the WebSocket object at
creation time; `disconnect()` nulls the `ws` field but never removes
those listeners, so a `close` event of the closed socket still runs the
close handler afterwards — the model therefore processes transport
events regardless of the `wsExists` flag, mirroring the source. -/

/-- Connection status values carried by status events. -/
inductive ConnStatus where
  | connecting | connected | disconnected | error
deriving DecidableEq, Repr

/-- A status event emitted by a connector. -/
structure StatusEvent where
  status : ConnStatus
  errorMessage : Option String := none
deriving DecidableEq, Repr

/-- Observable output of one handler run: emitted status events and
the pair lists passed to `sendSubscribe`. -/
structure StepOut where
  statusEvents : List StatusEvent := []
  wireSubs : List (List PairStr) := []
deriving DecidableEq, Repr

/-- The mutable fields of `BaseExchange`, plus live-timer counters. -/
structure ConnState where
  wsExists : Bool
  wsOpen : Bool
  isConnected : Bool
  reconnectSet : Bool
  reconnectLive : ℕ
  pingSet : Bool
  pingLive : ℕ
  subscribedPairs : List PairStr
deriving DecidableEq, Repr

/-- Freshly constructed connector: no socket, no timers, empty set. -/
def initConn : ConnState :=
  { wsExists := false, wsOpen := false, isConnected := false, reconnectSet := false,
    reconnectLive := 0, pingSet := false, pingLive := 0, subscribedPairs := [] }

/-- Events a connector reacts to: the public API calls, the socket
events, and the reconnect timer firing. -/
inductive ConnEv where
  | connectCall
  | disconnectCall
  | subscribeCall (ps : List PairStr)
  | unsubscribeCall (ps : List PairStr)
  | wsOpenEv
  | wsCloseEv
  | wsErrorEv (msg : String)
  | reconnectFire
deriving DecidableEq, Repr

/-- `Set.add` over the insertion-ordered subscription set. -/
def addPair (l : List PairStr) (p : PairStr) : List PairStr :=
  if p ∈ l then l else l ++ [p]

/-- `pairs.forEach(pair => this.subscribedPairs.add(pair))`. -/
def addPairs (l : List PairStr) (ps : List PairStr) : List PairStr :=
  ps.foldl addPair l

/-- `pairs.forEach(pair => this.subscribedPairs.delete(pair))`. -/
def removePairs (l : List PairStr) (ps : List PairStr) : List PairStr :=
  l.filter (fun x => decide (x ∉ ps))

/-- `scheduleReconnect()`: guarded — a no-op when a reconnect timeout
is already pending, otherwise it creates one 5-second timer. -/
def scheduleReconnect (st : ConnState) : ConnState :=
  if st.reconnectSet then st
  else { st with reconnectSet := true, reconnectLive := st.reconnectLive + 1 }

/-- `stopPing()`: clears the tracked ping interval if set. -/
def stopPing (st : ConnState) : ConnState :=
  if st.pingSet then { st with pingSet := false, pingLive := st.pingLive - 1 } else st

/-- `startPing()`: sets a fresh interval, overwriting the field without
clearing a previously tracked interval (as the source does). -/
def startPing (st : ConnState) : ConnState :=
  { st with pingSet := true, pingLive := st.pingLive + 1 }

/-- `connect()`: a no-op when the socket is already OPEN; otherwise it
emits a `connecting` status and creates a fresh WebSocket (whose `open`
event arrives later as `wsOpenEv`). -/
def connectStep (st : ConnState) : ConnState × StepOut :=
  if st.wsOpen then (st, {})
  else ({ st with wsExists := true, wsOpen := false },
    { statusEvents := [{ status := .connecting }] })

/-- One event-handler run of the connector, following the source:
- `connectCall` — `connect()`;
- `disconnectCall` — `disconnect()`: cancel the reconnect timeout if
  set, `stopPing()`, close and null the socket, clear `isConnected`
  (no status event is emitted);
- `subscribeCall` — add the pairs; if connected, wire-subscribe exactly
  the pairs given to the call;
- `unsubscribeCall` — remove the pairs;
- `wsOpenEv` — the `open` listener: set `isConnected`, emit `connected`,
  run `onConnected()` (which replays the full subscription set when
  non-empty), then `startPing()`;
- `wsCloseEv` — the `close` listener: clear `isConnected`, emit
  `disconnected`, `stopPing()`, `scheduleReconnect()`;
- `wsErrorEv` — the `error` listener: emit an `error` status carrying
  the message; nothing else (no reconnect is scheduled here);
- `reconnectFire` — the timeout callback: null the timeout field and
  call `connect()`. -/
def connStep (st : ConnState) : ConnEv → ConnState × StepOut
  | .connectCall => connectStep st
  | .disconnectCall =>
      let st1 := if st.reconnectSet then
          { st with reconnectSet := false, reconnectLive := st.reconnectLive - 1 }
        else st
      let st2 := stopPing st1
      ({ st2 with wsExists := false, wsOpen := false, isConnected := false }, {})
  | .subscribeCall ps =>
      ({ st with subscribedPairs := addPairs st.subscribedPairs ps },
        { wireSubs := if st.isConnected then [ps] else [] })
  | .unsubscribeCall ps =>
      ({ st with subscribedPairs := removePairs st.subscribedPairs ps }, {})
  | .wsOpenEv =>
      (startPing { st with wsOpen := true, isConnected := true },
        { statusEvents := [{ status := .connected }],
          wireSubs := if st.subscribedPairs.isEmpty then [] else [st.subscribedPairs] })
  | .wsCloseEv =>
      (scheduleReconnect (stopPing { st with wsOpen := false, isConnected := false }),
        { statusEvents := [{ status := .disconnected }] })
  | .wsErrorEv msg =>
      (st, { statusEvents := [{ status := .error, errorMessage := some msg }] })
  | .reconnectFire =>
      if st.reconnectSet then
        connectStep { st with reconnectSet := false, reconnectLive := st.reconnectLive - 1 }
      else (st, {})

/-- Fold a sequence of events through the connector. -/
def connRun (st : ConnState) : List ConnEv → ConnState
  | [] => st
  | e :: es => connRun (connStep st e).1 es

/-- The timer bookkeeping invariant: the live reconnect-timer count is
1 exactly when the `reconnectTimeout` field is set. -/
def reconnectInv (st : ConnState) : Prop :=
  st.reconnectLive = if st.reconnectSet then 1 else 0

/-! ### Symbol translation (`formatSymbol` / `parseSymbol`)

JavaScript's `String.prototype.replace` with a string pattern replaces
only the first occurrence; `jsReplace pat rep s` embeds it on character
lists.  `endsWith` is list suffixhood. -/

/-- `s.replace(pat, rep)` — replace the first occurrence of `pat` in
`s` by `rep`; `s` unchanged when `pat` does not occur. -/
def jsReplace {α : Type} [DecidableEq α] (pat rep : List α) : List α → List α
  | [] => if pat <+: ([] : List α) then rep else []
  | c :: cs =>
    if pat <+: c :: cs then rep ++ (c :: cs).drop pat.length
    else c :: jsReplace pat rep cs

/-- The quote-currency string "USDT". -/
def usdt : PairStr := ['U', 'S', 'D', 'T']

/-- The quote-currency string "USDC". -/
def usdc : PairStr := ['U', 'S', 'D', 'C']

/-- Bitget `formatSymbol`: `pair.replace("/", "")`. -/
def bitgetFormatSymbol (pair : PairStr) : PairStr := jsReplace ['/'] [] pair

/-- Bitget `parseSymbol`: on a symbol ending in USDT (checked first) or
USDC, strip the first occurrence of that quote string and re-attach it
after a slash; otherwise return the symbol unchanged. -/
def bitgetParseSymbol (symbol : PairStr) : PairStr :=
  if usdt <:+ symbol then jsReplace usdt [] symbol ++ '/' :: usdt
  else if usdc <:+ symbol then jsReplace usdc [] symbol ++ '/' :: usdc
  else symbol

/-- Bybit `formatSymbol`: `pair.replace("/", "")`. -/
def bybitFormatSymbol (pair : PairStr) : PairStr := jsReplace ['/'] [] pair

/-- Bybit `parseSymbol`: identical returned logic to bitget's (the
source's `base` binding is dead code). -/
def bybitParseSymbol (symbol : PairStr) : PairStr :=
  if usdt <:+ symbol then jsReplace usdt [] symbol ++ '/' :: usdt
  else if usdc <:+ symbol then jsReplace usdc [] symbol ++ '/' :: usdc
  else symbol

/-- MEXC `formatSymbol`: `pair.replace("/", "").toUpperCase()`. -/
def mexcFormatSymbol (pair : PairStr) : PairStr :=
  (jsReplace ['/'] [] pair).map Char.toUpper

/-- MEXC `parseSymbol`: same endsWith/strip logic as bitget. -/
def mexcParseSymbol (symbol : PairStr) : PairStr :=
  if usdt <:+ symbol then jsReplace usdt [] symbol ++ '/' :: usdt
  else if usdc <:+ symbol then jsReplace usdc [] symbol ++ '/' :: usdc
  else symbol

/-- CoinEx `formatSymbol`: `pair.replace("/", "")`. -/
def coinexFormatSymbol (pair : PairStr) : PairStr := jsReplace ['/'] [] pair

/-- CoinEx `parseSymbol`: same endsWith/strip logic as bitget. -/
def coinexParseSymbol (symbol : PairStr) : PairStr :=
  if usdt <:+ symbol then jsReplace usdt [] symbol ++ '/' :: usdt
  else if usdc <:+ symbol then jsReplace usdc [] symbol ++ '/' :: usdc
  else symbol

/-- BingX `formatSymbol`: `pair.replace("/", "-")`. -/
def bingxFormatSymbol (pair : PairStr) : PairStr := jsReplace ['/'] ['-'] pair

/-- BingX `parseSymbol`: `symbol.replace("-", "/")`. -/
def bingxParseSymbol (symbol : PairStr) : PairStr := jsReplace ['-'] ['/'] symbol

/-- KuCoin `formatSymbol`: `pair.replace("/", "-")`. -/
def kucoinFormatSymbol (pair : PairStr) : PairStr := jsReplace ['/'] ['-'] pair

/-- KuCoin `parseSymbol`: `symbol.replace("-", "/")`. -/
def kucoinParseSymbol (symbol : PairStr) : PairStr := jsReplace ['-'] ['/'] symbol

/-- Gate.io `formatSymbol`: `pair.replace("/", "_")` (the instance's
`symbolMapping` record is initialized empty and never populated, so the
rewrite loop is a no-op). -/
def gateioFormatSymbol (pair : PairStr) : PairStr := jsReplace ['/'] ['_'] pair

/-- Gate.io `parseSymbol`: `symbol.replace("_", "/")` (the
`reverseMapping` record is likewise always empty). -/
def gateioParseSymbol (symbol : PairStr) : PairStr := jsReplace ['_'] ['/'] symbol

/-- OKX `formatSymbol`: `pair.replace("/", "-")`. -/
def okxFormatSymbol (pair : PairStr) : PairStr := jsReplace ['/'] ['-'] pair

/-- OKX `parseSymbol`: `symbol.replace("-", "/")`. -/
def okxParseSymbol (symbol : PairStr) : PairStr := jsReplace ['-'] ['/'] symbol

/-- `pat` has no non-trivial overlap with itself: no proper non-empty
suffix of it is one of its prefixes.  (Decidable, checked by `decide`
for the concrete quote-currency strings.) -/
def selfOverlapFree {α : Type} [DecidableEq α] (pat : List α) : Prop :=
  ∀ k < pat.length, 0 < k → ¬(pat.drop k <+: pat)

instance {α : Type} [DecidableEq α] (pat : List α) : Decidable (selfOverlapFree pat) := by
  unfold selfOverlapFree
  infer_instance

/-! ### Adapter message decoding

Wire payloads carry string-encoded numbers; the adapters coerce them
with `parseFloat`.  A field of type `Option ℚ` is `none` when the wire
field is missing or parses to NaN, and `some q` when it parses to the
number `q`; `jsNum` is the `parseFloat(x) || 0` coercion. -/

/-- `parseFloat(x) || 0`: missing / non-numeric fields become `0`. -/
def jsNum (o : Option ℚ) : ℚ := o.getD 0

/-- Bitget `msg.arg`: channel name and native instrument id. -/
structure BitgetArg where
  channel : String
  instId : PairStr
deriving DecidableEq, Repr

/-- Bitget ticker payload (`msg.data[i]`), post-`parseFloat`. -/
structure BitgetTickerData where
  bidPr : Option ℚ
  askPr : Option ℚ
  lastPr : Option ℚ
  baseVolume : Option ℚ
  change24h : Option ℚ
deriving DecidableEq, Repr

/-- A bitget push message; `books5` payloads (order books) produce no
ticker and are represented only through the channel name. -/
structure BitgetMsg where
  arg : Option BitgetArg
  data : List BitgetTickerData
deriving DecidableEq, Repr

/-- Bitget `handleTicker`: always constructs a ticker, coercing every
missing or non-numeric price field to `0` via `parseFloat(...) || 0`
(`change24h` is scaled by 100 before the `|| 0`). -/
def bitgetHandleTicker (now : ℕ) (instId : PairStr) (d : BitgetTickerData) : Ticker :=
  { exchange := .bitget, pair := bitgetParseSymbol instId,
    bid := jsNum d.bidPr, ask := jsNum d.askPr, last := jsNum d.lastPr,
    volume24h := jsNum d.baseVolume,
    change24h := jsNum (d.change24h.map (· * 100)),
    timestamp := now }

/-- Bitget `handleMessage`: drop messages without `arg` or with empty
`data`; dispatch channel "ticker" to `handleTicker`; the "books5"
branch emits an order book, hence no ticker. -/
def bitgetHandleMessage (now : ℕ) (msg : BitgetMsg) : Option Ticker :=
  match msg.arg with
  | none => none
  | some a =>
    match msg.data with
    | [] => none
    | d :: _ =>
      if a.channel = "ticker" then some (bitgetHandleTicker now a.instId d)
      else none

/-- A WebSocket frame: binary buffer or text. -/
inductive WsData where
  | binary (bytes : List ℕ)
  | text (s : String)
deriving DecidableEq, Repr

/-- The frame-to-string step of the message handler.  `gunzip` and
`inflateRaw` return `none` on failure (the thrown error is caught);
`utf8` is `Buffer.toString()`. -/
def decodeFrame (gunzip inflateRaw : List ℕ → Option String) (utf8 : List ℕ → String) :
    WsData → Option String
  | .text s => some s
  | .binary bytes =>
    match bytes with
    | b0 :: b1 :: rest =>
      if b0 = 31 ∧ b1 = 139 then
        match gunzip (b0 :: b1 :: rest) with
        | some s => some s
        | none => inflateRaw (b0 :: b1 :: rest)
      else some (utf8 (b0 :: b1 :: rest))
    | bytes => some (utf8 bytes)

/-- The full inbound pipeline for the bitget adapter: decode the frame,
`JSON.parse` the string (failure caught and skipped), then
`handleMessage`. -/
def processBitgetFrame (gunzip inflateRaw : List ℕ → Option String)
    (utf8 : List ℕ → String) (jsonParse : String → Option BitgetMsg) (now : ℕ)
    (d : WsData) : Option Ticker :=
  match decodeFrame gunzip inflateRaw utf8 d with
  | none => none
  | some str =>
    match jsonParse str with
    | none => none
    | some msg => bitgetHandleMessage now msg

/-- A concrete gunzip collaborator: inflates the two-byte magic buffer
to the payload "x". -/
def gunzipTest : List ℕ → Option String := fun b => if b = [31, 139] then some "x" else none

/-- A concrete raw-deflate collaborator that always fails. -/
def inflateTest : List ℕ → Option String := fun _ => none

/-- A concrete UTF-8 decode collaborator. -/
def utf8Test : List ℕ → String := fun _ => ""

/-- A concrete bitget ticker message with all price fields present. -/
def bitgetMsgTest : BitgetMsg :=
  { arg := some { channel := "ticker", instId := ['B', 'T', 'C', 'U', 'S', 'D', 'T'] },
    data := [{ bidPr := some 99, askPr := some 100, lastPr := some 100,
               baseVolume := some 5, change24h := some (1 / 100) }] }

/-- A concrete JSON parser collaborator mapping the payload "x" to the
bitget test message. -/
def jsonParseTest : String → Option BitgetMsg :=
  fun str => if str = "x" then some bitgetMsgTest else none

/-- Membership in the collected price list: exactly the enabled
exchanges whose cached ticker has positive ask and bid, paired with
that ticker's ask. -/
theorem mem_collectPrices {enabled : List ExchangeId} {tickers : TickerMap}
    {pair : PairStr} {p : ExchangeId × ℚ} :
    p ∈ collectPrices enabled tickers pair ↔
      p.1 ∈ enabled ∧ ∃ t, tickers (p.1, pair) = some t ∧ t.ask > 0 ∧ t.bid > 0 ∧ p.2 = t.ask := by
  unfold collectPrices
  rw [List.mem_filterMap]
  constructor
  · rintro ⟨ex, hex, hf⟩
    split at hf
    next t hlook =>
      split_ifs at hf with hq
      cases hf
      exact ⟨hex, t, hlook, hq.1, hq.2, rfl⟩
    next hlook => cases hf
  · rintro ⟨hmem, t, hlook, ha, hb, hp⟩
    rcases p with ⟨ex, q⟩
    dsimp at hmem hlook hp ⊢
    subst hp
    refine ⟨ex, hmem, ?_⟩
    simp only [hlook]
    rw [if_pos ⟨ha, hb⟩]

/-- In a sorted list the head is related to every member (given
reflexivity of the relation). -/
theorem sorted_head_all {α : Type} {r : α → α → Prop} (hrefl : ∀ x, r x x)
    {a : α} {l : List α} (h : List.Sorted r (a :: l)) : ∀ x ∈ a :: l, r a x := by
  intro x hx
  rcases List.mem_cons.mp hx with rfl | hx
  · exact hrefl x
  · exact List.rel_of_sorted_cons h x hx

/-- In a sorted list every member is related to the last element (given
reflexivity of the relation). -/
theorem sorted_all_getLast? {α : Type} {r : α → α → Prop} (hrefl : ∀ x, r x x) :
    ∀ {l : List α} {b : α}, l.getLast? = some b → List.Sorted r l → ∀ x ∈ l, r x b := by
  intro l
  induction l with
  | nil => intro b hb; cases hb
  | cons a t ih =>
    intro b hb hs x hx
    cases t with
    | nil =>
      simp only [List.getLast?_singleton, Option.some.injEq] at hb
      subst hb
      rcases List.mem_singleton.mp hx with rfl
      exact hrefl x
    | cons c t2 =>
      rw [List.getLast?_cons_cons] at hb
      rcases List.mem_cons.mp hx with rfl | hx2
      · have hbmem : b ∈ c :: t2 := List.mem_of_mem_getLast? hb
        exact List.rel_of_sorted_cons hs b hbmem
      · exact ih hb hs.of_cons x hx2

/-- Unfolding characterization of a successful `analyzePair` pass. -/
theorem analyzePair_eq_some {fees : ExchangeId → ℚ} {s : Settings} {tickers : TickerMap}
    {cooldown : CooldownMap} {now : ℕ} {pair : PairStr} {r : ScanResult}
    (h : analyzePair fees s tickers cooldown now pair = some r) :
    ∃ bestBuy bestSell,
      (List.insertionSort priceLe (collectPrices s.enabledExchanges tickers pair)).head? =
          some bestBuy ∧
      (List.insertionSort priceLe (collectPrices s.enabledExchanges tickers pair)).getLast? =
          some bestSell ∧
      ¬(collectPrices s.enabledExchanges tickers pair).length < 2 ∧
      r = analyzeCore fees s tickers cooldown now pair
            (collectPrices s.enabledExchanges tickers pair) bestBuy bestSell := by
  unfold analyzePair at h
  by_cases hlen : (collectPrices s.enabledExchanges tickers pair).length < 2
  · rw [if_pos hlen] at h; cases h
  · rw [if_neg hlen] at h
    split at h
    next bb bs heq1 heq2 =>
      cases h
      exact ⟨bb, bs, heq1, heq2, hlen, rfl⟩
    all_goals cases h

theorem analyzeCore_prices (fees : ExchangeId → ℚ) (s : Settings) (tickers : TickerMap)
    (cooldown : CooldownMap) (now : ℕ) (pair : PairStr)
    (prices : List (ExchangeId × ℚ)) (bb bs : ExchangeId × ℚ) :
    (analyzeCore fees s tickers cooldown now pair prices bb bs).prices = prices := by
  simp only [analyzeCore]
  split_ifs <;> rfl

theorem analyzeCore_bestBuy (fees : ExchangeId → ℚ) (s : Settings) (tickers : TickerMap)
    (cooldown : CooldownMap) (now : ℕ) (pair : PairStr)
    (prices : List (ExchangeId × ℚ)) (bb bs : ExchangeId × ℚ) :
    (analyzeCore fees s tickers cooldown now pair prices bb bs).bestBuy = bb := by
  simp only [analyzeCore]
  split_ifs <;> rfl

theorem analyzeCore_bestSell (fees : ExchangeId → ℚ) (s : Settings) (tickers : TickerMap)
    (cooldown : CooldownMap) (now : ℕ) (pair : PairStr)
    (prices : List (ExchangeId × ℚ)) (bb bs : ExchangeId × ℚ) :
    (analyzeCore fees s tickers cooldown now pair prices bb bs).bestSell = bs := by
  simp only [analyzeCore]
  split_ifs <;> rfl

theorem analyzeCore_sellPrice (fees : ExchangeId → ℚ) (s : Settings) (tickers : TickerMap)
    (cooldown : CooldownMap) (now : ℕ) (pair : PairStr)
    (prices : List (ExchangeId × ℚ)) (bb bs : ExchangeId × ℚ) :
    (analyzeCore fees s tickers cooldown now pair prices bb bs).sellPrice =
      jsSellPrice tickers pair bs := by
  simp only [analyzeCore]
  split_ifs <;> rfl

theorem analyzeCore_spread (fees : ExchangeId → ℚ) (s : Settings) (tickers : TickerMap)
    (cooldown : CooldownMap) (now : ℕ) (pair : PairStr)
    (prices : List (ExchangeId × ℚ)) (bb bs : ExchangeId × ℚ) :
    (analyzeCore fees s tickers cooldown now pair prices bb bs).spread =
      (jsSellPrice tickers pair bs - bb.2) / bb.2 * 100 := by
  simp only [analyzeCore]
  split_ifs <;> rfl

theorem analyzeCore_profit (fees : ExchangeId → ℚ) (s : Settings) (tickers : TickerMap)
    (cooldown : CooldownMap) (now : ℕ) (pair : PairStr)
    (prices : List (ExchangeId × ℚ)) (bb bs : ExchangeId × ℚ) :
    (analyzeCore fees s tickers cooldown now pair prices bb bs).profitPercent =
      (analyzeCore fees s tickers cooldown now pair prices bb bs).spread -
        (fees bb.1 + fees bs.1) * 100 := by
  simp only [analyzeCore]
  split_ifs <;> rfl

theorem analyzeCore_opportunity_isSome (fees : ExchangeId → ℚ) (s : Settings)
    (tickers : TickerMap) (cooldown : CooldownMap) (now : ℕ) (pair : PairStr)
    (prices : List (ExchangeId × ℚ)) (bb bs : ExchangeId × ℚ) :
    (analyzeCore fees s tickers cooldown now pair prices bb bs).opportunity.isSome = true ↔
      (analyzeCore fees s tickers cooldown now pair prices bb bs).profitPercent ≥
          s.minProfitPercent ∧
        ¬((now : ℤ) - ((cooldown (pair, bb.1, bs.1)).getD 0 : ℕ) < 30000) := by
  simp only [analyzeCore]
  split_ifs with h1 h2 <;> simp_all

theorem analyzeCore_cooldown_of_none (fees : ExchangeId → ℚ) (s : Settings)
    (tickers : TickerMap) (cooldown : CooldownMap) (now : ℕ) (pair : PairStr)
    (prices : List (ExchangeId × ℚ)) (bb bs : ExchangeId × ℚ)
    (h : (analyzeCore fees s tickers cooldown now pair prices bb bs).opportunity = none) :
    (analyzeCore fees s tickers cooldown now pair prices bb bs).cooldownAfter = cooldown := by
  simp only [analyzeCore] at h ⊢
  split_ifs at h ⊢ <;> simp_all

theorem analyzeCore_cooldown_of_some (fees : ExchangeId → ℚ) (s : Settings)
    (tickers : TickerMap) (cooldown : CooldownMap) (now : ℕ) (pair : PairStr)
    (prices : List (ExchangeId × ℚ)) (bb bs : ExchangeId × ℚ)
    (h : (analyzeCore fees s tickers cooldown now pair prices bb bs).opportunity.isSome = true) :
    (analyzeCore fees s tickers cooldown now pair prices bb bs).cooldownAfter =
      fun k => if k = (pair, bb.1, bs.1) then some now else cooldown k := by
  simp only [analyzeCore] at h ⊢
  split_ifs at h ⊢ <;> simp_all

/-! ### C1: chosen buy and sell prices -/

unseal Rat.add Rat.mul Rat.inv Rat.sub in
/-- C1 counterexample: with bitget (ask 100, bid 99) and bybit (ask 101,
bid 98) both enabled and qualifying, the scan's sell price is 98 — the
bid of the max-ask exchange (bybit) — and not the maximum bid 99 held by
bitget, refuting the claim that the chosen sell price equals the maximum
bid among the qualifying exchanges. -/
theorem c1_counterexample :
    (analyzePair feesTest settingsTest tickersLowSellBid cdEmpty 100000 pBTC).map
        ScanResult.sellPrice = some 98 ∧
    tickersLowSellBid (.bitget, pBTC) = some tickerBitgetC1 ∧
    tickerBitgetC1.ask > 0 ∧ tickerBitgetC1.bid = 99 ∧
    tickersLowSellBid (.bybit, pBTC) = some tickerBybitC1 ∧
    tickerBybitC1.ask > 0 ∧ tickerBybitC1.bid = 98 ∧ (98 : ℚ) ≠ 99 := by
  decide

/-- C1 (amended): whenever a scan pass runs for a pair (at least two
enabled exchanges with cached ask > 0 and bid > 0), the buy price is the
minimum ask among the qualifying exchanges, the sell venue is an
exchange attaining the maximum ask, and the sell price is that venue's
cached bid (not in general the maximum bid). -/
theorem analyzePair_min_ask_sell_bid
    (fees : ExchangeId → ℚ) (s : Settings) (tickers : TickerMap) (cooldown : CooldownMap)
    (now : ℕ) (pair : PairStr) (r : ScanResult)
    (h : analyzePair fees s tickers cooldown now pair = some r) :
    (r.bestBuy ∈ r.prices ∧ ∀ p ∈ r.prices, r.bestBuy.2 ≤ p.2) ∧
    (r.bestSell ∈ r.prices ∧ ∀ p ∈ r.prices, p.2 ≤ r.bestSell.2) ∧
    (∃ t, tickers (r.bestSell.1, pair) = some t ∧ t.bid > 0 ∧ r.sellPrice = t.bid) ∧
    (∀ ex t, ex ∈ s.enabledExchanges → tickers (ex, pair) = some t → t.ask > 0 → t.bid > 0 →
      (ex, t.ask) ∈ r.prices) := by
  obtain ⟨bb, bs, hh, hl, hlen, rfl⟩ := analyzePair_eq_some h
  rw [analyzeCore_prices, analyzeCore_bestBuy, analyzeCore_bestSell, analyzeCore_sellPrice]
  have hsorted : List.Sorted priceLe
      (List.insertionSort priceLe (collectPrices s.enabledExchanges tickers pair)) :=
    List.sorted_insertionSort priceLe _
  have hperm :
      List.Perm (List.insertionSort priceLe (collectPrices s.enabledExchanges tickers pair))
        (collectPrices s.enabledExchanges tickers pair) :=
    List.perm_insertionSort priceLe _
  have hrefl : ∀ x : ExchangeId × ℚ, priceLe x x := fun x => le_refl x.2
  have hmm : ∀ p ∈ collectPrices s.enabledExchanges tickers pair,
      p ∈ List.insertionSort priceLe (collectPrices s.enabledExchanges tickers pair) :=
    fun p hp => hperm.mem_iff.mpr hp
  have hbbmin : ∀ p ∈ collectPrices s.enabledExchanges tickers pair, bb.2 ≤ p.2 := by
    intro p hp
    cases hcase : List.insertionSort priceLe (collectPrices s.enabledExchanges tickers pair) with
    | nil => rw [hcase] at hh; cases hh
    | cons a tl =>
      rw [hcase] at hh
      cases hh
      have := sorted_head_all hrefl (hcase ▸ hsorted) p (hcase ▸ hmm p hp)
      exact this
  have hbbmem : bb ∈ collectPrices s.enabledExchanges tickers pair := by
    refine hperm.mem_iff.mp ?_
    cases hcase : List.insertionSort priceLe (collectPrices s.enabledExchanges tickers pair) with
    | nil => rw [hcase] at hh; cases hh
    | cons a tl =>
      rw [hcase] at hh
      injection hh with h1
      rw [h1]
      exact List.mem_cons_self bb tl
  have hbsmax : ∀ p ∈ collectPrices s.enabledExchanges tickers pair, p.2 ≤ bs.2 := by
    intro p hp
    exact sorted_all_getLast? hrefl hl hsorted p (hmm p hp)
  have hbsmem : bs ∈ collectPrices s.enabledExchanges tickers pair :=
    hperm.mem_iff.mp (List.mem_of_mem_getLast? hl)
  obtain ⟨-, t, hlook, -, hbid, hask⟩ := mem_collectPrices.mp hbsmem
  refine ⟨⟨hbbmem, hbbmin⟩, ⟨hbsmem, hbsmax⟩, ⟨t, hlook, hbid, ?_⟩, ?_⟩
  · unfold jsSellPrice
    simp only [hlook]
    rw [if_pos (ne_of_gt hbid)]
  · intro ex t' hex hlook' ha' hb'
    exact mem_collectPrices.mpr ⟨hex, t', hlook', ha', hb', rfl⟩

unseal Rat.add Rat.mul Rat.inv Rat.sub in
/-- C1 witness: the amended statement evaluated on the concrete
two-exchange cache. -/
theorem c1_amended_witness :
    (let r := (analyzePair feesTest settingsTest tickersLowSellBid cdEmpty 100000 pBTC).getD
        default
     (r.bestBuy ∈ r.prices ∧ ∀ p ∈ r.prices, r.bestBuy.2 ≤ p.2) ∧
     (r.bestSell ∈ r.prices ∧ ∀ p ∈ r.prices, p.2 ≤ r.bestSell.2) ∧
     (∃ t, tickersLowSellBid (r.bestSell.1, pBTC) = some t ∧ t.bid > 0 ∧ r.sellPrice = t.bid) ∧
     (∀ ex t, ex ∈ settingsTest.enabledExchanges → tickersLowSellBid (ex, pBTC) = some t →
        t.ask > 0 → t.bid > 0 → (ex, t.ask) ∈ r.prices)) :=
  analyzePair_min_ask_sell_bid feesTest settingsTest tickersLowSellBid cdEmpty 100000 pBTC _ rfl

/-! ### C2: threshold inclusivity and 30-second cooldown -/

unseal Rat.add Rat.mul Rat.inv Rat.sub in
/-- C2: a pass with at least two qualifying sources emits an
opportunity iff `profitPercent ≥ minProfitPercent` (boundary inclusive)
and the last recorded emission for the key (pair, buyExchange,
sellExchange) is at least 30000 ms old (an absent entry counts as time
0); a suppressed pass leaves the cooldown map unchanged and an emitting
pass records the current time for exactly that key.  Concretely, passes
at 100000 ms, 115000 ms and 131000 ms over a qualifying cache emit,
suppress and emit again: two qualifying passes within 30 s yield one
emission and a third 31 s after the first yields a second. -/
theorem analyzePair_cooldown_policy :
    (∀ (fees : ExchangeId → ℚ) (s : Settings) (tickers : TickerMap) (cooldown : CooldownMap)
        (now : ℕ) (pair : PairStr) (r : ScanResult),
        analyzePair fees s tickers cooldown now pair = some r →
        ((r.opportunity.isSome = true ↔
            r.profitPercent ≥ s.minProfitPercent ∧
              ¬((now : ℤ) - ((cooldown (pair, r.bestBuy.1, r.bestSell.1)).getD 0 : ℕ) < 30000)) ∧
          (r.opportunity = none → r.cooldownAfter = cooldown) ∧
          (r.opportunity.isSome = true →
            r.cooldownAfter =
              fun k => if k = (pair, r.bestBuy.1, r.bestSell.1) then some now else cooldown k))) ∧
    runScans feesTest settingsTest tickersProfit pBTC cdEmpty [100000, 115000, 131000] =
      [true, false, true] := by
  constructor
  · intro fees s tickers cooldown now pair r h
    obtain ⟨bb, bs, hh, hl, hlen, rfl⟩ := analyzePair_eq_some h
    rw [analyzeCore_bestBuy, analyzeCore_bestSell]
    exact ⟨analyzeCore_opportunity_isSome fees s tickers cooldown now pair _ bb bs,
      analyzeCore_cooldown_of_none fees s tickers cooldown now pair _ bb bs,
      analyzeCore_cooldown_of_some fees s tickers cooldown now pair _ bb bs⟩
  · decide

unseal Rat.add Rat.mul Rat.inv Rat.sub in
/-- C2 witness: the general clause applied at the concrete qualifying
cache and time 100000 ms. -/
theorem c2_witness :
    ((analyzePair feesTest settingsTest tickersProfit cdEmpty 100000 pBTC).getD
        default).opportunity.isSome = true := by
  have h := analyzePair_cooldown_policy.1 feesTest settingsTest tickersProfit cdEmpty 100000 pBTC
      ((analyzePair feesTest settingsTest tickersProfit cdEmpty 100000 pBTC).getD default) rfl
  refine h.1.mpr ⟨?_, ?_⟩ <;> decide

/-! ### C3: spread and profit formulas -/

unseal Rat.add Rat.mul Rat.inv Rat.sub in
/-- C3: every pass computes
`spread = (sellBid - buyAsk) / buyAsk * 100` and
`profitPercent = spread - (buyTakerFee + sellTakerFee) * 100` (exact
rational arithmetic in the model); concretely buyAsk 100 and sellBid
102 give spread 2 and, with both taker fees 0.001, profit 9/5 = 1.8. -/
theorem analyzePair_spread_profit_formulas :
    (∀ (fees : ExchangeId → ℚ) (s : Settings) (tickers : TickerMap) (cooldown : CooldownMap)
        (now : ℕ) (pair : PairStr) (r : ScanResult),
        analyzePair fees s tickers cooldown now pair = some r →
        r.spread = (r.sellPrice - r.bestBuy.2) / r.bestBuy.2 * 100 ∧
        r.profitPercent = r.spread - (fees r.bestBuy.1 + fees r.bestSell.1) * 100) ∧
    (analyzePair feesTest settingsTest tickersProfit cdEmpty 100000 pBTC).map
        (fun r => (r.bestBuy.2, r.sellPrice, r.spread, r.profitPercent)) =
      some (100, 102, 2, 9 / 5) := by
  constructor
  · intro fees s tickers cooldown now pair r h
    obtain ⟨bb, bs, hh, hl, hlen, rfl⟩ := analyzePair_eq_some h
    refine ⟨?_, ?_⟩
    · rw [analyzeCore_spread, analyzeCore_sellPrice, analyzeCore_bestBuy]
    · rw [analyzeCore_profit, analyzeCore_bestBuy, analyzeCore_bestSell]
  · decide

unseal Rat.add Rat.mul Rat.inv Rat.sub in
/-- C3 witness: the formula clause applied at the concrete cache whose
buy ask is 100 and sell bid is 102. -/
theorem c3_witness :
    (let r := (analyzePair feesTest settingsTest tickersProfit cdEmpty 100000 pBTC).getD default
     r.spread = (r.sellPrice - r.bestBuy.2) / r.bestBuy.2 * 100 ∧
     r.profitPercent = r.spread - (feesTest r.bestBuy.1 + feesTest r.bestSell.1) * 100) :=
  analyzePair_spread_profit_formulas.1 feesTest settingsTest tickersProfit cdEmpty 100000 pBTC
    _ rfl

/-! ### C10: partial settings update -/

/-- C10: `updateSettings` replaces exactly the fields present in the
partial object and keeps every absent field at its previous value, and
`getSettings` immediately afterwards returns the merged record. -/
theorem updateSettings_frame_getSettings (s : Settings) (p : PartialSettings) :
    (∀ v, p.minProfitPercent = some v → (updateSettings s p).minProfitPercent = v) ∧
    (p.minProfitPercent = none → (updateSettings s p).minProfitPercent = s.minProfitPercent) ∧
    (∀ v, p.enabledExchanges = some v → (updateSettings s p).enabledExchanges = v) ∧
    (p.enabledExchanges = none → (updateSettings s p).enabledExchanges = s.enabledExchanges) ∧
    (∀ v, p.enabledPairs = some v → (updateSettings s p).enabledPairs = v) ∧
    (p.enabledPairs = none → (updateSettings s p).enabledPairs = s.enabledPairs) ∧
    (∀ v, p.telegramEnabled = some v → (updateSettings s p).telegramEnabled = v) ∧
    (p.telegramEnabled = none → (updateSettings s p).telegramEnabled = s.telegramEnabled) ∧
    (∀ v, p.soundEnabled = some v → (updateSettings s p).soundEnabled = v) ∧
    (p.soundEnabled = none → (updateSettings s p).soundEnabled = s.soundEnabled) ∧
    (∀ v, p.tradeAmount = some v → (updateSettings s p).tradeAmount = v) ∧
    (p.tradeAmount = none → (updateSettings s p).tradeAmount = s.tradeAmount) ∧
    getSettings (updateSettings s p) = updateSettings s p := by
  refine ⟨fun v hv => ?_, fun hv => ?_, fun v hv => ?_, fun hv => ?_, fun v hv => ?_,
    fun hv => ?_, fun v hv => ?_, fun hv => ?_, fun v hv => ?_, fun hv => ?_,
    fun v hv => ?_, fun hv => ?_, rfl⟩ <;>
  simp [updateSettings, hv]

/-- C10 witness: a present field is replaced and an absent field keeps
its old value on a concrete update. -/
theorem c10_witness :
    (updateSettings settingsTest partialTest).minProfitPercent = 2 ∧
    (updateSettings settingsTest partialTest).enabledExchanges = settingsTest.enabledExchanges := by
  have h := updateSettings_frame_getSettings settingsTest partialTest
  exact ⟨h.1 2 rfl, h.2.2.2.1 rfl⟩

theorem connStep_reconnectInv (st : ConnState) (e : ConnEv) (h : reconnectInv st) :
    reconnectInv (connStep st e).1 := by
  cases e <;>
    simp only [connStep, connectStep, scheduleReconnect, stopPing, startPing,
      reconnectInv] at h ⊢ <;>
    split_ifs at h ⊢ <;> simp_all

theorem connRun_reconnectInv (evs : List ConnEv) :
    ∀ st : ConnState, reconnectInv st → reconnectInv (connRun st evs) := by
  induction evs with
  | nil => intro st h; exact h
  | cons e es ih => intro st h; exact ih _ (connStep_reconnectInv st e h)

/-! ### C4: single reconnect timer, full subscription replay -/

/-- C4: starting from a fresh connector, after any sequence of API
calls, socket events and timer firings at most one reconnect timer is
live (re-entrant close/error events never stack a second one), and the
`open` handler of a (re)connected socket replays the entire current
subscription set in one wire subscribe. -/
theorem reconnect_single_and_full_replay :
    (∀ evs : List ConnEv, (connRun initConn evs).reconnectLive ≤ 1) ∧
    (∀ st : ConnState, st.subscribedPairs ≠ [] →
      (connStep st .wsOpenEv).2.wireSubs = [st.subscribedPairs]) := by
  constructor
  · intro evs
    have h := connRun_reconnectInv evs initConn (by simp [reconnectInv, initConn])
    rw [reconnectInv] at h
    split_ifs at h <;> simp [h]
  · intro st hne
    simp [connStep, List.isEmpty_iff, hne]

/-- C4 witness: replay of a concrete one-pair subscription set on
reconnect. -/
theorem c4_witness :
    (connStep { initConn with subscribedPairs := [pBTC] } .wsOpenEv).2.wireSubs = [[pBTC]] :=
  reconnect_single_and_full_replay.2 { initConn with subscribedPairs := [pBTC] } (by decide)

/-! ### C6: transport errors are surfaced and recoverable -/

/-- C6: a transport failure raises the socket's `error` event followed
by its `close` event.  The error handler emits an `error` status
carrying the message and tears nothing down (the connector state is
unchanged, so the process continues); the accompanying close event then
leaves a reconnect scheduled, whatever state the connector was in. -/
theorem transport_error_status_reconnect (st : ConnState) (msg : String) :
    (connStep st (.wsErrorEv msg)).2.statusEvents =
      [{ status := .error, errorMessage := some msg }] ∧
    (connStep st (.wsErrorEv msg)).1 = st ∧
    (connStep (connStep st (.wsErrorEv msg)).1 .wsCloseEv).1.reconnectSet = true := by
  refine ⟨rfl, rfl, ?_⟩
  simp only [connStep, scheduleReconnect, stopPing]
  split_ifs <;> simp_all

/-! ### C7: disconnect and stray timers -/

/-- C7 (code bug): `disconnect()` does cancel the pending timers, close
the socket and clear `isConnected` — but the `close` event that the
deliberately closed socket then delivers still runs the close handler,
which schedules a fresh 5-second reconnect timer after teardown; when
it fires, the connector re-creates a socket.  Evaluated on the trace
connect → open → disconnect → close(→ timer fires). -/
theorem disconnect_stray_reconnect_timer :
    (connRun initConn [.connectCall, .wsOpenEv, .disconnectCall]).reconnectLive = 0 ∧
    (connRun initConn [.connectCall, .wsOpenEv, .disconnectCall]).pingLive = 0 ∧
    (connRun initConn [.connectCall, .wsOpenEv, .disconnectCall]).wsExists = false ∧
    (connRun initConn [.connectCall, .wsOpenEv, .disconnectCall]).isConnected = false ∧
    (connRun initConn [.connectCall, .wsOpenEv, .disconnectCall, .wsCloseEv]).reconnectLive
      = 1 ∧
    (connRun initConn [.connectCall, .wsOpenEv, .disconnectCall, .wsCloseEv]).reconnectSet
      = true ∧
    (connRun initConn
        [.connectCall, .wsOpenEv, .disconnectCall, .wsCloseEv, .reconnectFire]).wsExists
      = true := by
  decide

/-- A prefix is in particular a contiguous sublist. -/
theorem prefix_contiguous {α : Type} {l₁ l₂ : List α} (h : l₁ <+: l₂) : l₁ <:+: l₂ := by
  obtain ⟨t, ht⟩ := h
  exact ⟨[], t, by simpa using ht⟩

/-- Replacing a single separator that does not occur in the part before
it rewrites exactly the boundary occurrence. -/
theorem jsReplace_char_boundary {α : Type} [DecidableEq α] (c : α) (rep : List α) :
    ∀ (base rest : List α), c ∉ base →
      jsReplace [c] rep (base ++ c :: rest) = base ++ rep ++ rest := by
  intro base
  induction base with
  | nil =>
    intro rest h
    simp only [List.nil_append, jsReplace]
    rw [if_pos ⟨rest, rfl⟩]
    simp
  | cons b bs ih =>
    intro rest h
    have hcb : c ≠ b := fun hq => h (hq ▸ List.mem_cons_self b bs)
    simp only [List.cons_append, jsReplace]
    rw [if_neg fun hp => hcb (List.cons_prefix_cons.mp hp).1]
    exact congrArg (fun x => b :: x) (ih rest fun hm => h (List.mem_cons_of_mem b hm))

/-- If `pat` never occurs inside `base` and has no self-overlap, the
first occurrence of `pat` in `base ++ pat` is the final one, so
replacing it by nothing recovers `base`. -/
theorem jsReplace_strip_append_self {α : Type} [DecidableEq α] (pat : List α)
    (hso : selfOverlapFree pat) :
    ∀ base : List α, ¬(pat <:+: base) → jsReplace pat [] (base ++ pat) = base := by
  intro base
  induction base with
  | nil =>
    intro _
    cases hp : pat with
    | nil => simp [jsReplace]
    | cons p ps =>
      simp only [List.nil_append, jsReplace]
      rw [if_pos (List.prefix_refl _)]
      simp
  | cons b bs ih =>
    intro hni
    have hnp : ¬(pat <+: b :: (bs ++ pat)) := by
      intro hp
      have hp2 : pat <+: (b :: bs) ++ pat := hp
      rcases le_or_lt pat.length (b :: bs).length with hle | hlt
      · have heq : pat = ((b :: bs) ++ pat).take pat.length := List.prefix_iff_eq_take.mp hp2
        rw [List.take_append_of_le_length hle] at heq
        exact hni (prefix_contiguous (heq ▸ List.take_prefix _ _))
      · have heq : pat = ((b :: bs) ++ pat).take pat.length := List.prefix_iff_eq_take.mp hp2
        rw [List.take_append_eq_append_take,
          List.take_of_length_le (Nat.le_of_lt hlt)] at heq
        have hdrop : pat.drop (b :: bs).length = pat.take (pat.length - (b :: bs).length) := by
          conv_lhs => rw [heq]
          exact List.drop_left _ _
        exact hso (b :: bs).length hlt (by simp) (hdrop ▸ List.take_prefix _ _)
    show jsReplace pat [] (b :: (bs ++ pat)) = b :: bs
    rw [jsReplace, if_neg hnp]
    rw [ih fun hm => hni (List.infix_cons hm)]

/-- A string ending in "USDC" does not end in "USDT". -/
theorem not_usdt_suffix_of_usdc (base : PairStr) : ¬usdt <:+ base ++ usdc := by
  intro h
  rcases List.suffix_or_suffix_of_suffix h (List.suffix_append base usdc) with h3 | h3
  · exact absurd (h3.eq_of_length (by decide)) (by decide)
  · exact absurd (h3.eq_of_length (by decide)) (by decide)

/-- The bitget-style `parseSymbol` recovers the canonical pair from a
concatenated symbol, for the USDT quote. -/
theorem bitgetParse_append_usdt (base : PairStr) (h4 : ¬usdt <:+: base) :
    bitgetParseSymbol (base ++ usdt) = base ++ '/' :: usdt := by
  unfold bitgetParseSymbol
  rw [if_pos (List.suffix_append base usdt)]
  rw [jsReplace_strip_append_self usdt (by decide) base h4]

/-- The bitget-style `parseSymbol` recovers the canonical pair from a
concatenated symbol, for the USDC quote. -/
theorem bitgetParse_append_usdc (base : PairStr) (h5 : ¬usdc <:+: base) :
    bitgetParseSymbol (base ++ usdc) = base ++ '/' :: usdc := by
  unfold bitgetParseSymbol
  rw [if_neg (not_usdt_suffix_of_usdc base), if_pos (List.suffix_append base usdc)]
  rw [jsReplace_strip_append_self usdc (by decide) base h5]

theorem bybitParse_eq_bitget : bybitParseSymbol = bitgetParseSymbol := rfl

theorem mexcParse_eq_bitget : mexcParseSymbol = bitgetParseSymbol := rfl

theorem coinexParse_eq_bitget : coinexParseSymbol = bitgetParseSymbol := rfl

/-! ### C9: bidirectionality of the symbol mappings -/

/-- C9 counterexample: the claim's hypotheses allow BASE = "USDTA"
(non-empty, no separator, does not end in a quote-currency name) and
BASE = "btc"; yet bitget's round-trip maps "USDTA/USDT" to
"AUSDT/USDT" (JS `replace` strips the first "USDT" occurrence, inside
the base) and MEXC's maps "btc/USDT" to "BTC/USDT" (uppercasing), so
`parseSymbol(formatSymbol(pair)) = pair` fails as stated. -/
theorem c9_counterexample :
    (bitgetParseSymbol (bitgetFormatSymbol (['U', 'S', 'D', 'T', 'A'] ++ '/' :: usdt)) ≠
        ['U', 'S', 'D', 'T', 'A'] ++ '/' :: usdt ∧
      ¬usdt <:+ ['U', 'S', 'D', 'T', 'A'] ∧ ¬usdc <:+ ['U', 'S', 'D', 'T', 'A'] ∧
      '/' ∉ ['U', 'S', 'D', 'T', 'A'] ∧ '-' ∉ ['U', 'S', 'D', 'T', 'A'] ∧
      '_' ∉ ['U', 'S', 'D', 'T', 'A']) ∧
    (mexcParseSymbol (mexcFormatSymbol (['b', 't', 'c'] ++ '/' :: usdt)) ≠
        ['b', 't', 'c'] ++ '/' :: usdt ∧
      ¬usdt <:+ ['b', 't', 'c'] ∧ ¬usdc <:+ ['b', 't', 'c'] ∧
      '/' ∉ ['b', 't', 'c'] ∧ '-' ∉ ['b', 't', 'c'] ∧ '_' ∉ ['b', 't', 'c']) := by
  decide

/-- C9 (amended): for a canonical pair "BASE/QUOTE" with QUOTE ∈
USDT, USDC and BASE non-empty, free of the separator characters,
containing no occurrence of a quote-currency name anywhere (not merely
at the end) and invariant under uppercasing, every one of the eight
adapters round-trips: `parseSymbol(formatSymbol(pair)) = pair`. -/
theorem symbol_roundtrip (base quote : PairStr)
    (hq : quote = usdt ∨ quote = usdc)
    (hb : base ≠ [])
    (hslash : '/' ∉ base) (hhyph : '-' ∉ base) (hund : '_' ∉ base)
    (hnu1 : ¬usdt <:+: base) (hnu2 : ¬usdc <:+: base)
    (hup : base.map Char.toUpper = base) :
    bitgetParseSymbol (bitgetFormatSymbol (base ++ '/' :: quote)) = base ++ '/' :: quote ∧
    bybitParseSymbol (bybitFormatSymbol (base ++ '/' :: quote)) = base ++ '/' :: quote ∧
    mexcParseSymbol (mexcFormatSymbol (base ++ '/' :: quote)) = base ++ '/' :: quote ∧
    coinexParseSymbol (coinexFormatSymbol (base ++ '/' :: quote)) = base ++ '/' :: quote ∧
    bingxParseSymbol (bingxFormatSymbol (base ++ '/' :: quote)) = base ++ '/' :: quote ∧
    kucoinParseSymbol (kucoinFormatSymbol (base ++ '/' :: quote)) = base ++ '/' :: quote ∧
    gateioParseSymbol (gateioFormatSymbol (base ++ '/' :: quote)) = base ++ '/' :: quote ∧
    okxParseSymbol (okxFormatSymbol (base ++ '/' :: quote)) = base ++ '/' :: quote := by
  have hstrip : jsReplace ['/'] [] (base ++ '/' :: quote) = base ++ quote := by
    rw [jsReplace_char_boundary '/' [] base quote hslash, List.append_nil]
  have hparse : bitgetParseSymbol (base ++ quote) = base ++ '/' :: quote := by
    rcases hq with rfl | rfl
    · exact bitgetParse_append_usdt base hnu1
    · exact bitgetParse_append_usdc base hnu2
  have hsep : ∀ c : Char, ∀ rep : List Char, c ∉ base →
      jsReplace [c] rep (base ++ c :: quote) = base ++ rep ++ quote :=
    fun c rep hc => jsReplace_char_boundary c rep base quote hc
  have hupq : quote.map Char.toUpper = quote := by
    rcases hq with rfl | rfl <;> decide
  refine ⟨?_, ?_, ?_, ?_, ?_, ?_, ?_, ?_⟩
  · rw [bitgetFormatSymbol, hstrip, hparse]
  · rw [bybitFormatSymbol, bybitParse_eq_bitget, hstrip, hparse]
  · rw [mexcFormatSymbol, mexcParse_eq_bitget, hstrip, List.map_append, hup, hupq, hparse]
  · rw [coinexFormatSymbol, coinexParse_eq_bitget, hstrip, hparse]
  · rw [bingxFormatSymbol, bingxParseSymbol, hsep '/' ['-'] hslash]
    have : base ++ ['-'] ++ quote = base ++ '-' :: quote := by simp
    rw [this, hsep '-' ['/'] hhyph]
    simp
  · rw [kucoinFormatSymbol, kucoinParseSymbol, hsep '/' ['-'] hslash]
    have : base ++ ['-'] ++ quote = base ++ '-' :: quote := by simp
    rw [this, hsep '-' ['/'] hhyph]
    simp
  · rw [gateioFormatSymbol, gateioParseSymbol, hsep '/' ['_'] hslash]
    have : base ++ ['_'] ++ quote = base ++ '_' :: quote := by simp
    rw [this, hsep '_' ['/'] hund]
    simp
  · rw [okxFormatSymbol, okxParseSymbol, hsep '/' ['-'] hslash]
    have : base ++ ['-'] ++ quote = base ++ '-' :: quote := by simp
    rw [this, hsep '-' ['/'] hhyph]
    simp

/-- C9 witness: the amended round-trip at the concrete pair BTC/USDT,
on one strip-style adapter (bitget) and one separator-style adapter
(OKX). -/
theorem c9_witness :
    bitgetParseSymbol (bitgetFormatSymbol (['B', 'T', 'C'] ++ '/' :: usdt)) =
        ['B', 'T', 'C'] ++ '/' :: usdt ∧
    okxParseSymbol (okxFormatSymbol (['B', 'T', 'C'] ++ '/' :: usdt)) =
        ['B', 'T', 'C'] ++ '/' :: usdt := by
  have h := symbol_roundtrip ['B', 'T', 'C'] usdt (Or.inl rfl) (by decide) (by decide)
    (by decide) (by decide) (by decide) (by decide) (by decide)
  exact ⟨h.1, h.2.2.2.2.2.2.2⟩

/-! ### C8: gzip-compressed and plain frames decode identically -/

/-- C8: a binary frame starting with the gzip magic bytes whose
inflation yields the payload string `s` is processed to exactly the
same canonical ticker as a plain text frame carrying `s`, whatever the
JSON parser and the downstream handler do with the payload. -/
theorem gzip_text_frame_equivalence (gunzip inflateRaw : List ℕ → Option String)
    (utf8 : List ℕ → String) (jsonParse : String → Option BitgetMsg) (now : ℕ)
    (buf : List ℕ) (s : String)
    (hmagic : buf.take 2 = [31, 139]) (hgz : gunzip buf = some s) :
    processBitgetFrame gunzip inflateRaw utf8 jsonParse now (.binary buf) =
      processBitgetFrame gunzip inflateRaw utf8 jsonParse now (.text s) := by
  cases buf with
  | nil => simp at hmagic
  | cons b0 rest =>
    cases rest with
    | nil => simp [List.take] at hmagic
    | cons b1 r2 =>
      simp only [List.take, List.cons.injEq, and_true] at hmagic
      obtain ⟨rfl, rfl, -⟩ := hmagic
      simp [processBitgetFrame, decodeFrame, hgz]

/-- C8 witness: the equivalence applied to the concrete gzip frame
`[31, 139]` and its payload "x". -/
theorem c8_witness :
    processBitgetFrame gunzipTest inflateTest utf8Test jsonParseTest 7 (.binary [31, 139]) =
      processBitgetFrame gunzipTest inflateTest utf8Test jsonParseTest 7 (.text "x") :=
  gzip_text_frame_equivalence gunzipTest inflateTest utf8Test jsonParseTest 7 [31, 139] "x"
    rfl rfl

/-! ### C5: frames with bad price fields -/

